import Mathlib

set_option maxRecDepth 8192

/-!
Verification of the family-medication-adherence backend.

Shallow embedding of `server/index.js` (Express backend of the
family-medication web application): phone/dose-time normalizers, the
JSON database state, and the mutating HTTP operations (register, member
creation/update, consume, reminder trigger), together with proofs of the
specification's testable properties.

JavaScript conventions modelled explicitly:
* `JsVal` represents a value of unknown shape arriving from JSON
  (`undefined`/`null` collapse to `.undef`; any non-string value that is
  not `undefined`/`null` is `.other`, since the code only ever checks
  `typeof value === 'string'` on those).
* `Option` fields model possibly-absent JSON fields.
* JSON numbers are embedded as exact rationals (`ℚ`) where the code can
  store and propagate non-integral values (`timesPerDay`, which
  `normalizeTimesPerDay` passes through unchanged whenever it is
  positive), and as `Int` for `supply`/`consumedCount`/`change`, whose
  verified properties quantify only over integer values.
-/

/-- A JSON/JS value whose only relevant distinctions for `normalizeTime`
are: nullish, a string, or anything else. -/
inductive JsVal where
  | undef : JsVal
  | str : String → JsVal
  | other : JsVal
  deriving DecidableEq, Repr, Inhabited

/-- The whitespace characters relevant to `String.prototype.trim` for the
inputs this code manipulates. -/
def isSpaceChar (c : Char) : Bool :=
  c == ' ' || c == '\t' || c == '\n' || c == '\r'

/-- `String.prototype.trim` on the character list of a string. -/
def trimChars (cs : List Char) : List Char :=
  ((cs.dropWhile isSpaceChar).reverse.dropWhile isSpaceChar).reverse

/-- First two characters of `HH:MM`: `([01]\d|2[0-3])`. -/
def hourOk (a b : Char) : Bool :=
  ((a == '0' || a == '1') && b.isDigit) ||
    (a == '2' && (b == '0' || b == '1' || b == '2' || b == '3'))

/-- Last two characters of `HH:MM`: `([0-5]\d)`. -/
def minuteOk (d e : Char) : Bool :=
  ('0' ≤ d && d ≤ '5') && e.isDigit

/-- The anchored regex `^([01]\d|2[0-3]):([0-5]\d)$` from `normalizeTime`. -/
def isHHMMChars : List Char → Bool
  | [a, b, c, d, e] => (c == ':') && hourOk a b && minuteOk d e
  | _ => false

/-- Strict `HH:MM` shape of a string (hours 00-23, minutes 00-59). -/
def isHHMM (s : String) : Bool := isHHMMChars s.toList

/-- `normalizeTime` from `server/index.js`: nullish, non-string or empty
values fall back to `"08:00"`; otherwise the trimmed value must match the
strict `HH:MM` regex, else fall back. -/
def normalizeTime (value : JsVal) : String :=
  match value with
  | .undef => "08:00"
  | .other => "08:00"
  | .str s =>
    if s = "" then "08:00"
    else
      let t := String.mk (trimChars s.toList)
      if isHHMMChars t.toList then t else "08:00"

/-- `normalizeTimesPerDay` from `server/index.js`: the fast path
`typeof value === 'number' && value > 0` returns any positive number
unchanged — including non-integers such as 2.5 — and everything else
(zero, negatives, whose `parseInt` is not positive) becomes 1. -/
def normalizeTimesPerDay (value : ℚ) : ℚ :=
  if 0 < value then value else 1

/-- `normalizeTimesPerDay` applied to a possibly-absent field
(`parseInt(undefined)` is `NaN`, so absent also yields 1). -/
def normalizeTimesPerDayOpt (value : Option ℚ) : ℚ :=
  match value with
  | some n => normalizeTimesPerDay n
  | none => 1

/-- How many times `for (let i = 0; i < count; i++)` executes its body:
`⌈count⌉` iterations for a positive count and none otherwise (a
non-integral count such as 2.5 still runs 3 iterations). -/
def loopIterations (count : ℚ) : Nat := (⌈count⌉).toNat

/-- The argument `provided[i] ?? result[i-1] ?? '08:00'` of the call to
`normalizeTime` inside the loop of `normalizeDoseTimes`: `acc` is the
list of already-resolved times (so `result[i-1]` is its last element). -/
def doseCandidate (incoming : List JsVal) (acc : List String) : JsVal :=
  match incoming.getD acc.length .undef with
  | .undef => .str (acc.getLast?.getD "08:00")
  | v => v

/-- The loop of `normalizeDoseTimes`: `k` iterations remain, `acc` holds
the entries resolved so far. -/
def doseTimesGo (incoming : List JsVal) : Nat → List String → List String
  | 0, acc => acc
  | k + 1, acc =>
    doseTimesGo incoming k (acc ++ [normalizeTime (doseCandidate incoming acc)])

/-- `normalizeDoseTimes` from `server/index.js`. -/
def normalizeDoseTimes (timesPerDay : ℚ) (incoming : List JsVal) : List String :=
  doseTimesGo incoming (loopIterations (normalizeTimesPerDay timesPerDay)) []

/-- `formatPhoneNumber` from `server/index.js`: strip non-digits; digits
beginning with the country code `91` and at least 12 long keep their first
12 digits behind `+`; otherwise the last 10 digits are prefixed with
`+91`; an empty digit string gives the empty string. -/
def formatPhoneNumber (phone : String) : String :=
  if phone = "" then ""
  else
    let digits := phone.toList.filter Char.isDigit
    if digits = [] then ""
    else if digits.take 2 = ['9', '1'] ∧ 12 ≤ digits.length then
      "+" ++ String.mk (digits.take 12)
    else
      let lastTen := digits.drop (digits.length - 10)
      if lastTen = [] then "" else "+91" ++ String.mk lastTen

/-- `formatPhoneNumber` applied to a possibly-absent field
(`formatPhoneNumber(undefined)` returns the empty string). -/
def fmtOptPhone (phone : Option String) : String :=
  match phone with
  | none => ""
  | some s => formatPhoneNumber s

/-! Data model.

The persisted JSON document `{users, families, members, logs}`.  The
`Raw*` structures describe the document as it may sit on disk before
`sanitizeDb` runs (fields possibly absent or unnormalized); the plain
structures describe entities as the mutating routes construct them. -/

structure User where
  id : String
  username : String
  password : String
  phone : String
  role : String
  familyId : String
  deriving DecidableEq, Repr, Inhabited

structure Family where
  id : String
  headUserIds : List String
  deriving DecidableEq, Repr, Inhabited

structure LogEntry where
  id : String
  familyId : String
  timestamp : String
  message : String
  deriving DecidableEq, Repr, Inhabited

structure Medication where
  id : String
  name : String
  dosage : String
  supply : Int
  consumedCount : Int
  timesPerDay : ℚ
  doseTimes : List String
  /-- legacy single-time field, carried along by the object spread in
  `sanitizeDb` and read by the trigger route's backfill -/
  intakeTime : JsVal
  deriving DecidableEq, Repr, Inhabited

structure Member where
  id : String
  familyId : String
  name : String
  ageGroup : String
  phone : String
  medications : List Medication
  deriving DecidableEq, Repr, Inhabited

structure Db where
  users : List User
  families : List Family
  members : List Member
  logs : List LogEntry
  deriving DecidableEq, Repr, Inhabited

structure RawMedication where
  id : String
  name : String
  dosage : String
  supply : Int
  consumedCount : Int
  timesPerDay : Option ℚ
  doseTimes : Option (List JsVal)
  intakeTime : JsVal
  deriving DecidableEq, Repr, Inhabited

structure RawMember where
  id : String
  familyId : String
  name : String
  ageGroup : String
  phone : Option String
  medications : Option (List RawMedication)
  deriving DecidableEq, Repr, Inhabited

structure RawUser where
  id : String
  username : String
  password : String
  phone : Option String
  role : String
  familyId : String
  deriving DecidableEq, Repr, Inhabited

structure RawDb where
  users : Option (List RawUser)
  families : List Family
  members : Option (List RawMember)
  logs : List LogEntry
  deriving DecidableEq, Repr, Inhabited

/-- The medication branch of `sanitizeDb`:
`timesPerDay = normalizeTimesPerDay(med.timesPerDay || (med.doseTimes?.length || 1))`
and `doseTimes` renormalized, seeding from the legacy `intakeTime` when no
dose times are stored. -/
def sanitizeMedication (med : RawMedication) : Medication :=
  let fallbackLen : ℚ :=
    match med.doseTimes with
    | some l => if l.length ≠ 0 then (l.length : ℚ) else 1
    | none => 1
  let tpdVal : ℚ :=
    match med.timesPerDay with
    | some t => if t ≠ 0 then t else fallbackLen
    | none => fallbackLen
  let timesPerDay := normalizeTimesPerDay tpdVal
  { id := med.id
    name := med.name
    dosage := med.dosage
    supply := med.supply
    consumedCount := med.consumedCount
    timesPerDay := timesPerDay
    doseTimes := normalizeDoseTimes timesPerDay
      (match med.doseTimes with
       | some l => if l.length > 0 then l else [med.intakeTime]
       | none => [med.intakeTime])
    intakeTime := med.intakeTime }

def sanitizeMember (m : RawMember) : Member :=
  { id := m.id
    familyId := m.familyId
    name := m.name
    ageGroup := m.ageGroup
    phone := fmtOptPhone m.phone
    medications := (m.medications.getD []).map sanitizeMedication }

def sanitizeUser (u : RawUser) : User :=
  { id := u.id
    username := u.username
    password := u.password
    phone := fmtOptPhone u.phone
    role := u.role
    familyId := u.familyId }

/-- `sanitizeDb` from `server/index.js`, run once at startup: formats every
phone number and renormalizes every medication's `timesPerDay`/`doseTimes`. -/
def sanitizeDb (raw : RawDb) : Db :=
  { users := (raw.users.getD []).map sanitizeUser
    families := raw.families
    members := (raw.members.getD []).map sanitizeMember
    logs := raw.logs }

/-! HTTP operations.

Each route is a function from the shared state (and the request) to a
status code and the new state.  Fresh identifiers from
`crypto.randomUUID()` and timestamps from `new Date()` arrive through
oracle streams `uuid`/`ts` indexed by call site. -/

/-- `a || b` on a possibly-absent string (the empty string is falsy). -/
def jsOrStr (v : Option String) (d : String) : String :=
  match v with
  | some s => if s = "" then d else s
  | none => d

/-- Truthiness of a possibly-absent string. -/
def jsTruthyStr (v : Option String) : Bool :=
  match v with
  | some s => s ≠ ""
  | none => false

/-- Apply `f` to the first element satisfying `p`, i.e. a
`findIndex`-then-assign or an in-place mutation of the object returned by
`Array.prototype.find`. -/
def updateFirst (p : α → Bool) (f : α → α) : List α → List α
  | [] => []
  | x :: xs => if p x then f x :: xs else x :: updateFirst p f xs

/-- Map with the position in the list available to the mapper: used to
route one `crypto.randomUUID()` oracle value to each constructed
medication. -/
def mapIdxFrom (f : Nat → α → β) : Nat → List α → List β
  | _, [] => []
  | i, x :: xs => f i x :: mapIdxFrom f (i + 1) xs

/-- A medication object as a request body may carry it (fields possibly
absent; `supply` is `some` exactly when `typeof med.supply === 'number'`). -/
structure ReqMedication where
  id : Option String
  name : String
  dosage : String
  supply : Option Int
  consumedCount : Option Int
  timesPerDay : Option ℚ
  doseTimes : Option (List JsVal)
  intakeTime : JsVal
  deriving DecidableEq, Repr, Inhabited

/-- `POST /api/auth/register`. -/
def registerOp (db : Db) (sessions : List (String × String))
    (username password phone : Option String) (isHead : Bool)
    (uuid : Nat → String) (token : String) :
    Nat × Db × List (String × String) :=
  if !jsTruthyStr username || !jsTruthyStr password then (400, db, sessions)
  else if db.users.any (fun u => u.username == username.getD "") then (409, db, sessions)
  else
    let familyId := uuid 0
    let user : User :=
      { id := uuid 1
        username := username.getD ""
        password := password.getD ""
        phone := fmtOptPhone phone
        role := if isHead then "HEAD_OF_FAMILY" else "ADULT"
        familyId := familyId }
    (200,
     { db with
        users := db.users ++ [user]
        families := db.families ++ [{ id := familyId, headUserIds := [user.id] }] },
     (token, user.id) :: sessions)

/-- The medication constructor of `POST /api/members`. -/
def buildNewMedication (freshId : String) (med : ReqMedication) : Medication :=
  let timesPerDay := normalizeTimesPerDayOpt med.timesPerDay
  { id := jsOrStr med.id freshId
    name := med.name
    dosage := med.dosage
    supply := med.supply.getD 0
    consumedCount := med.consumedCount.getD 0
    timesPerDay := timesPerDay
    doseTimes := normalizeDoseTimes timesPerDay
      (match med.doseTimes with
       | some l => if l.length > 0 then l else [med.intakeTime]
       | none => [med.intakeTime])
    intakeTime := .undef }

/-- `POST /api/members`. -/
def addMemberOp (db : Db) (user : User) (name ageGroup phone : Option String)
    (medications : List ReqMedication) (uuid : Nat → String) (ts : String) :
    Nat × Db :=
  if user.role ≠ "HEAD_OF_FAMILY" then (403, db)
  else if !jsTruthyStr name || !jsTruthyStr ageGroup then (400, db)
  else
    let member : Member :=
      { id := uuid 0
        familyId := user.familyId
        name := name.getD ""
        ageGroup := ageGroup.getD ""
        phone := fmtOptPhone phone
        medications := mapIdxFrom (fun i med => buildNewMedication (uuid (i + 1)) med) 0 medications }
    let entry : LogEntry :=
      { id := uuid (medications.length + 1)
        familyId := user.familyId
        timestamp := ts
        message := "Added new family member: " ++ member.name }
    (201, { db with members := db.members ++ [member], logs := entry :: db.logs })

/-- The medication merger of `PUT /api/members/:id`: a request medication
whose id matches an existing medication of the member inherits that
medication's `consumedCount` (and, where the request omits them, its
`supply`, `timesPerDay` and `doseTimes`); an unmatched one starts at 0. -/
def buildUpdatedMedication (existingMeds : List Medication) (freshId : String)
    (med : ReqMedication) : Medication :=
  let existingMed : Option Medication :=
    match med.id with
    | some mid => existingMeds.find? (fun x => x.id == mid)
    | none => none
  let timesPerDay := normalizeTimesPerDay
    (match med.timesPerDay with
     | some t => t
     | none => match existingMed with
               | some em => em.timesPerDay
               | none => 1)
  let fallbackTimes : List JsVal :=
    match existingMed with
    | some em => em.doseTimes.map JsVal.str
    | none => []
  { id := jsOrStr med.id freshId
    name := med.name
    dosage := med.dosage
    supply := match med.supply with
              | some s => s
              | none => match existingMed with
                        | some em => em.supply
                        | none => 0
    consumedCount := match existingMed with
                     | some em => em.consumedCount
                     | none => 0
    timesPerDay := timesPerDay
    doseTimes := normalizeDoseTimes timesPerDay
      (match med.doseTimes with
       | some l => if l.length > 0 then l else fallbackTimes
       | none => fallbackTimes)
    intakeTime := .undef }

/-- `PUT /api/members/:id`. -/
def updateMemberOp (db : Db) (user : User) (memberId : String)
    (name ageGroup phone : Option String) (phoneProvided : Bool)
    (medications : List ReqMedication) (uuid : Nat → String) (ts : String) :
    Nat × Db :=
  if user.role ≠ "HEAD_OF_FAMILY" then (403, db)
  else
    match db.members.find? (fun m => m.id == memberId && m.familyId == user.familyId) with
    | none => (404, db)
    | some existing =>
      let updated : Member :=
        { existing with
            name := name.getD existing.name
            ageGroup := ageGroup.getD existing.ageGroup
            phone := if phoneProvided then fmtOptPhone phone else existing.phone
            medications := mapIdxFrom
              (fun i med => buildUpdatedMedication existing.medications (uuid i) med) 0 medications }
      let entry : LogEntry :=
        { id := uuid medications.length
          familyId := user.familyId
          timestamp := ts
          message := "Updated family member: " ++ updated.name }
      (200,
       { db with
          members := updateFirst (fun m => m.id == memberId && m.familyId == user.familyId)
            (fun _ => updated) db.members
          logs := entry :: db.logs })

/-- The two log entries of the consume route. -/
def doseTakenEntry (uuidV ts familyId medName memberName : String) (newSupply : Int) : LogEntry :=
  { id := uuidV
    familyId := familyId
    timestamp := ts
    message := "Dose taken: " ++ medName ++ " (" ++ memberName ++ "). Remaining: " ++ toString newSupply }

def lowSupplyEntry (uuidV ts familyId medName memberName : String) : LogEntry :=
  { id := uuidV
    familyId := familyId
    timestamp := ts
    message := "WARNING: Low supply for " ++ medName ++ " (" ++ memberName ++ "). Notify head of family." }

/-- `POST /api/members/:memberId/medications/:medId/consume`. -/
def consumeOp (db : Db) (user : User) (memberId medId : String) (change : Int)
    (uuid : Nat → String) (ts : Nat → String) : Nat × Db :=
  match db.members.find? (fun m => m.id == memberId && m.familyId == user.familyId) with
  | none => (404, db)
  | some member =>
    match member.medications.find? (fun m => m.id == medId) with
    | none => (404, db)
    | some med =>
      let oldSupply := med.supply
      let newSupply := max 0 (oldSupply + change)
      let med2 : Medication :=
        { med with
            supply := newSupply
            consumedCount := med.consumedCount + (if change < 0 then -change else 0) }
      let members2 := updateFirst (fun m => m.id == memberId && m.familyId == user.familyId)
        (fun m => { m with medications := updateFirst (fun x => x.id == medId) (fun _ => med2) m.medications })
        db.members
      let logs2 := doseTakenEntry (uuid 0) (ts 0) user.familyId med.name member.name newSupply :: db.logs
      let logs3 :=
        if newSupply ≤ 5 ∧ oldSupply > 5 then
          lowSupplyEntry (uuid 1) (ts 1) user.familyId med.name member.name :: logs2
        else logs2
      (200, { db with members := members2, logs := logs3 })

/-- `getFamilyHeads` from `server/index.js`. -/
def getFamilyHeads (db : Db) (familyId : String) : List User :=
  match db.families.find? (fun f => f.id == familyId) with
  | none => []
  | some fam => fam.headUserIds.filterMap (fun uid => db.users.find? (fun u => u.id == uid))

/-- The rendering of a JS number inside a template literal: exact for
integral values (the only ones the verified properties inspect); a
non-integral rational prints as `num/den` rather than a decimal. -/
def jsNumToString (q : ℚ) : String :=
  if q.den = 1 then toString q.num else toString q.num ++ "/" ++ toString q.den

/-- `POST /api/reminders/trigger`.  Returns the status, the new state and
the `events` array of the response. -/
def triggerOp (db : Db) (user : User) (memberId medicationId : String)
    (doseTime : Option String) (reminderTime : String) (uuid : Nat → String)
    (ts : Nat → String) : Nat × Db × List String :=
  match db.members.find? (fun m => m.id == memberId && m.familyId == user.familyId) with
  | none => (404, db, [])
  | some member =>
    match member.medications.find? (fun m => m.id == medicationId) with
    | none => (400, db, [])
    | some medication =>
      let medication2 :=
        if medication.doseTimes.length = 0 then
          { medication with
              doseTimes := [normalizeTime medication.intakeTime]
              timesPerDay := if medication.timesPerDay ≠ 0 then medication.timesPerDay else 1 }
        else medication
      let d0 := medication2.doseTimes.head?.getD ""
      let normalizedDoseTime :=
        if jsTruthyStr doseTime then normalizeTime (.str (doseTime.getD ""))
        else if d0 ≠ "" then d0 else "08:00"
      let heads := getFamilyHeads db member.familyId
      let joined := String.intercalate ", " (heads.map (·.username))
      let headNames := if joined ≠ "" then joined else "Head of family"
      let timesPerDay := if medication2.timesPerDay ≠ 0 then medication2.timesPerDay else 1
      let eventsLogs : List String × List LogEntry :=
        if member.ageGroup = "Minor" then
          (["Minor reminder: " ++ medication.name ++ " (" ++ jsNumToString timesPerDay ++
              "x/day, scheduled dose at " ++ normalizedDoseTime ++ "). Calling head(s) " ++
              headNames ++ " now (" ++ reminderTime ++ ")."],
           [{ id := uuid 0
              familyId := member.familyId
              timestamp := ts 0
              message := "REMINDER (Minor): Immediate call to head(s) " ++ headNames ++
                " for " ++ member.name ++ "'s " ++ medication.name ++
                " dose scheduled " ++ normalizedDoseTime ++ "." }])
        else
          (["Calling " ++ member.name ++ " now (" ++ reminderTime ++ ") for " ++
              medication.name ++ " dose scheduled " ++ normalizedDoseTime ++ ".",
            "Waiting for patient to pick up...",
            "Call missed. Waiting briefly before retry...",
            "Second call missed. Escalating to head(s): " ++ headNames ++ "."],
           [{ id := uuid 0
              familyId := member.familyId
              timestamp := ts 0
              message := "REMINDER (Adult): Immediate call to " ++ member.name ++ " at " ++
                reminderTime ++ " for " ++ medication.name ++ " dose scheduled " ++
                normalizedDoseTime ++ "." },
            { id := uuid 1
              familyId := member.familyId
              timestamp := ts 0
              message := "REMINDER (Adult): 2 missed calls for " ++ member.name ++
                ", escalating to head(s) " ++ headNames ++ "." }])
      let eventsLogs2 : List String × List LogEntry :=
        if heads.length > 1 then
          (eventsLogs.1 ++
             ["If first head does not respond, contacting backup head(s): " ++ headNames ++ "."],
           ({ id := uuid 2
              familyId := member.familyId
              timestamp := ts 1
              message := "HEAD ESCALATION: Primary head did not respond, attempting other head(s): " ++
                headNames ++ "." } : LogEntry) :: eventsLogs.2)
        else eventsLogs
      (200,
       { db with
          members := updateFirst (fun m => m.id == memberId && m.familyId == user.familyId)
            (fun m => { m with medications := (updateFirst (fun x => x.id == medicationId)
              (fun _ => medication2) m.medications) }) db.members
          logs := eventsLogs2.2 ++ db.logs },
       eventsLogs2.1)

/-- States reachable through the public mutating operations, starting from
the startup sanitization of an arbitrary on-disk document. -/
inductive Reachable : Db → Prop where
  | init (raw : RawDb) : Reachable (sanitizeDb raw)
  | register (db : Db) (sessions : List (String × String))
      (username password phone : Option String) (isHead : Bool)
      (uuid : Nat → String) (token : String) :
      Reachable db →
      Reachable (registerOp db sessions username password phone isHead uuid token).2.1
  | addMember (db : Db) (user : User) (name ageGroup phone : Option String)
      (medications : List ReqMedication) (uuid : Nat → String) (ts : String) :
      Reachable db →
      Reachable (addMemberOp db user name ageGroup phone medications uuid ts).2
  | updateMember (db : Db) (user : User) (memberId : String)
      (name ageGroup phone : Option String) (phoneProvided : Bool)
      (medications : List ReqMedication) (uuid : Nat → String) (ts : String) :
      Reachable db →
      Reachable (updateMemberOp db user memberId name ageGroup phone phoneProvided medications uuid ts).2
  | consume (db : Db) (user : User) (memberId medId : String) (change : Int)
      (uuid : Nat → String) (ts : Nat → String) :
      Reachable db →
      Reachable (consumeOp db user memberId medId change uuid ts).2
  | trigger (db : Db) (user : User) (memberId medicationId : String)
      (doseTime : Option String) (reminderTime : String) (uuid : Nat → String)
      (ts : Nat → String) :
      Reachable db →
      Reachable (triggerOp db user memberId medicationId doseTime reminderTime uuid ts).2.1

/-! Derived definitions used to state and prove the properties. -/

/-- Closed form of the entry the dose-times loop resolves at index `i`:
the candidate at `i` when it is not nullish, else the previously resolved
entry (the literal `'08:00'` at index 0), fed through `normalizeTime`. -/
def resolvedAt (incoming : List JsVal) : Nat → String
  | 0 => normalizeTime (match incoming.getD 0 .undef with
         | .undef => .str "08:00"
         | v => v)
  | i + 1 => normalizeTime (match incoming.getD (i + 1) .undef with
         | .undef => .str (resolvedAt incoming i)
         | v => v)

/-- A candidate value passes the validation of `normalizeTime` (it is a
non-empty string whose trimmed form matches the strict `HH:MM` regex). -/
def isValidTimeVal (v : JsVal) : Bool :=
  match v with
  | .str s => (s ≠ "" : Bool) && isHHMMChars (trimChars s.toList)
  | _ => false

/-- 1 when the member's family has more than one (existing) head, else 0:
the extra event/log of the multi-head branch of the trigger route. -/
def headsExtra (db : Db) (familyId : String) : Nat :=
  if (getFamilyHeads db familyId).length > 1 then 1 else 0

/-- The medication invariant the write paths actually establish:
`doseTimes` holds exactly the number of entries the normalizing loop
produces for `timesPerDay` — its ceiling — and `timesPerDay` is
positive.  For integral `timesPerDay` this is precisely
`doseTimes.length = timesPerDay`; for a non-integral value such as 2.5
the two sides differ (see the C7 counterexample). -/
def MedOk (med : Medication) : Prop :=
  med.doseTimes.length = loopIterations med.timesPerDay ∧ 0 < med.timesPerDay

/-- Every medication of every member satisfies the invariant. -/
def DbOk (db : Db) : Prop :=
  ∀ m ∈ db.members, ∀ med ∈ m.medications, MedOk med

/-- Recognizes the low-supply warning entries of the consume route. -/
def isLowSupplyWarning (e : LogEntry) : Bool :=
  List.isPrefixOf "WARNING: Low supply".toList e.message.toList

/-! Concrete inputs used by the witnesses. -/

def uuidO : Nat → String := fun n => "uuid-" ++ toString n

def tsO : Nat → String := fun n => "ts-" ++ toString n

def demoMed : Medication :=
  { id := "d1", name := "Aspirin", dosage := "100mg", supply := 6,
    consumedCount := 0, timesPerDay := 1, doseTimes := ["08:00"],
    intakeTime := .undef }

def demoMember : Member :=
  { id := "m1", familyId := "fam1", name := "Bob", ageGroup := "Adult",
    phone := "+919876543210", medications := [demoMed] }

def demoUser : User :=
  { id := "u1", username := "alice", password := "pw",
    phone := "+919876543210", role := "HEAD_OF_FAMILY", familyId := "fam1" }

def demoDb : Db :=
  { users := [demoUser],
    families := [{ id := "fam1", headUserIds := ["u1"] }],
    members := [demoMember],
    logs := [] }

def demoStep1 : Db := (consumeOp demoDb demoUser "m1" "d1" (-1) uuidO tsO).2

def demoStep2 : Db := (consumeOp demoStep1 demoUser "m1" "d1" (-1) uuidO tsO).2

def demoRawMed : RawMedication :=
  { id := "d9", name := "Ibuprofen", dosage := "200mg", supply := 3,
    consumedCount := 2, timesPerDay := some 2, doseTimes := some [.str "09:00"],
    intakeTime := .undef }

/-- A request medication that tries to overwrite `consumedCount`. -/
def demoReqMed : ReqMedication :=
  { id := some "d1", name := "Aspirin", dosage := "100mg", supply := some 6,
    consumedCount := some 99, timesPerDay := some 1,
    doseTimes := some [.str "08:00"], intakeTime := .undef }

def demoRawDb : RawDb :=
  { users := none,
    families := [],
    members := some [{ id := "m9", familyId := "fam9", name := "Carol",
                       ageGroup := "Senior", phone := some "98765",
                       medications := some [demoRawMed] }],
    logs := [] }

def demoSanMember : Member := (sanitizeDb demoRawDb).members.getD 0 default

def demoSanMed : Medication := demoSanMember.medications.getD 0 default

/-- A raw medication whose `timesPerDay` is the non-integral JSON number
2.5 (`mkRat 5 2`), as the on-disk document or a client request may
contain. -/
def fracRawMed : RawMedication :=
  { id := "dF", name := "Syrup", dosage := "5ml", supply := 4,
    consumedCount := 0, timesPerDay := some (mkRat 5 2),
    doseTimes := some [.str "09:00"], intakeTime := .undef }

def fracRawDb : RawDb :=
  { users := none,
    families := [],
    members := some [{ id := "mF", familyId := "famF", name := "Dana",
                       ageGroup := "Adult", phone := none,
                       medications := some [fracRawMed] }],
    logs := [] }

def fracDb : Db := sanitizeDb fracRawDb

def fracMember : Member := fracDb.members.getD 0 default

def fracMed : Medication := fracMember.medications.getD 0 default

/-! Lemmas about the time normalizer. -/

theorem digit_not_space (c : Char) (h : c.isDigit = true) : isSpaceChar c = false := by
  simp only [isSpaceChar, Bool.or_eq_false_iff, beq_eq_false_iff_ne, ne_eq]
  refine ⟨⟨⟨?_, ?_⟩, ?_⟩, ?_⟩ <;> rintro rfl <;> exact absurd h (by decide)

theorem trimChars_of_isHHMM (cs : List Char) (h : isHHMMChars cs = true) :
    trimChars cs = cs := by
  match cs with
  | [a, b, c, d, e] =>
    simp only [isHHMMChars, Bool.and_eq_true, beq_iff_eq] at h
    obtain ⟨⟨hc, hab⟩, hde⟩ := h
    have ha : isSpaceChar a = false := by
      simp only [hourOk, Bool.or_eq_true, Bool.and_eq_true, beq_iff_eq] at hab
      rcases hab with ⟨ha | ha, -⟩ | ⟨ha, -⟩ <;> subst ha <;> decide
    have he : isSpaceChar e = false := by
      simp only [minuteOk, Bool.and_eq_true] at hde
      exact digit_not_space e hde.2
    subst hc
    simp [trimChars, List.dropWhile, ha, he]

theorem isHHMM_normalizeTime (v : JsVal) : isHHMM (normalizeTime v) = true := by
  cases v with
  | undef => decide
  | other => decide
  | str s =>
    simp only [normalizeTime, isHHMM]
    split
    · decide
    · split
      next h => exact h
      next => decide

theorem normalizeTime_of_isHHMM (s : String) (h : isHHMM s = true) :
    normalizeTime (.str s) = s := by
  have hne : s ≠ "" := by
    intro he
    subst he
    exact absurd h (by decide)
  have h' : isHHMMChars s.toList = true := h
  have htr : trimChars s.toList = s.toList := trimChars_of_isHHMM s.toList h'
  have hmk : String.mk (trimChars s.toList) = s := by
    rw [htr]
    cases s
    rfl
  simp only [normalizeTime, if_neg hne, hmk, h', if_true]

theorem normalizeTime_of_invalid (v : JsVal) (h : isValidTimeVal v = false) :
    normalizeTime v = "08:00" := by
  cases v with
  | undef => rfl
  | other => rfl
  | str s =>
    simp only [isValidTimeVal, Bool.and_eq_false_iff, decide_eq_false_iff_not, not_not] at h
    simp only [normalizeTime]
    rcases h with h | h
    · rw [if_pos h]
    · split
      · rfl
      · rw [if_neg]
        simpa using h

/-! The closed form of the dose-times loop. -/

theorem isHHMM_resolvedAt (incoming : List JsVal) (i : Nat) :
    isHHMM (resolvedAt incoming i) = true := by
  cases i <;> (unfold resolvedAt; exact isHHMM_normalizeTime _)

theorem normalizeTime_doseCandidate (incoming : List JsVal) (m : Nat) :
    normalizeTime (doseCandidate incoming ((List.range m).map (resolvedAt incoming))) =
      resolvedAt incoming m := by
  cases m with
  | zero =>
    unfold doseCandidate resolvedAt
    simp
  | succ j =>
    have hlen : (((List.range (j + 1)).map (resolvedAt incoming)).length) = j + 1 := by simp
    have hlast : ((List.range (j + 1)).map (resolvedAt incoming)).getLast? =
        some (resolvedAt incoming j) := by
      rw [List.range_succ, List.map_append]
      simp [List.getLast?_concat]
    unfold doseCandidate resolvedAt
    rw [hlen, hlast]
    cases incoming.getD (j + 1) JsVal.undef <;> rfl

theorem doseTimesGo_eq_map (incoming : List JsVal) :
    ∀ (k m : Nat), doseTimesGo incoming k ((List.range m).map (resolvedAt incoming)) =
      (List.range (m + k)).map (resolvedAt incoming) := by
  intro k
  induction k with
  | zero => intro m; simp [doseTimesGo]
  | succ n ih =>
    intro m
    unfold doseTimesGo
    rw [normalizeTime_doseCandidate]
    have hstep : (List.range m).map (resolvedAt incoming) ++ [resolvedAt incoming m] =
        (List.range (m + 1)).map (resolvedAt incoming) := by
      rw [List.range_succ, List.map_append]
      rfl
    rw [hstep, ih (m + 1), show m + 1 + n = m + (n + 1) from by omega]

theorem normalizeDoseTimes_eq_map (t : ℚ) (incoming : List JsVal) :
    normalizeDoseTimes t incoming =
      (List.range (loopIterations (normalizeTimesPerDay t))).map (resolvedAt incoming) := by
  have h := doseTimesGo_eq_map incoming (loopIterations (normalizeTimesPerDay t)) 0
  simpa [normalizeDoseTimes] using h

theorem normalizeTimesPerDay_pos (v : ℚ) : 0 < normalizeTimesPerDay v := by
  unfold normalizeTimesPerDay
  split
  · assumption
  · exact one_pos

theorem normalizeTimesPerDayOpt_pos (v : Option ℚ) : 0 < normalizeTimesPerDayOpt v := by
  cases v with
  | none => exact one_pos
  | some n => exact normalizeTimesPerDay_pos n

theorem normalizeTimesPerDay_idem (v : ℚ) :
    normalizeTimesPerDay (normalizeTimesPerDay v) = normalizeTimesPerDay v := by
  conv_lhs => rw [normalizeTimesPerDay]
  rw [if_pos (normalizeTimesPerDay_pos v)]

theorem normalizeTimesPerDayOpt_norm (v : Option ℚ) :
    normalizeTimesPerDay (normalizeTimesPerDayOpt v) = normalizeTimesPerDayOpt v := by
  cases v with
  | none =>
    show normalizeTimesPerDay 1 = 1
    rw [normalizeTimesPerDay, if_pos one_pos]
  | some n => exact normalizeTimesPerDay_idem n

theorem normalizeTimesPerDay_cast (k : Nat) (hk : 1 ≤ k) :
    normalizeTimesPerDay (k : ℚ) = (k : ℚ) := by
  have hpos : (0 : ℚ) < (k : ℚ) := by
    exact_mod_cast Nat.lt_of_lt_of_le Nat.zero_lt_one hk
  rw [normalizeTimesPerDay, if_pos hpos]

theorem loopIterations_natCast (k : Nat) : loopIterations ((k : Nat) : ℚ) = k := by
  rw [loopIterations, Int.ceil_natCast, Int.toNat_natCast]

theorem length_normalizeDoseTimes (t : ℚ) (incoming : List JsVal) :
    (normalizeDoseTimes t incoming).length = loopIterations (normalizeTimesPerDay t) := by
  rw [normalizeDoseTimes_eq_map]
  simp

/-! Properties of the dose-schedule normalizer (claims C1 and C2). -/

/-- C1: for every positive integer `n` and every candidate list,
`normalizeDoseTimes(n, candidates)` returns exactly `n` strings, each of
which matches the strict `HH:MM` shape (hours 00-23, minutes 00-59). -/
theorem claim_C1_normalizeDoseTimes_length_and_shape
    (n : Nat) (hn : 0 < n) (incoming : List JsVal) :
    (normalizeDoseTimes (n : ℚ) incoming).length = n ∧
      ∀ s ∈ normalizeDoseTimes (n : ℚ) incoming, isHHMM s = true := by
  have hcount : loopIterations (normalizeTimesPerDay ((n : Nat) : ℚ)) = n := by
    rw [normalizeTimesPerDay_cast n hn, loopIterations_natCast]
  constructor
  · rw [length_normalizeDoseTimes, hcount]
  · intro s hs
    rw [normalizeDoseTimes_eq_map] at hs
    simp only [List.mem_map] at hs
    obtain ⟨i, -, rfl⟩ := hs
    exact isHHMM_resolvedAt incoming i

theorem claim_C1_witness :
    0 < 3 ∧ (normalizeDoseTimes ((3 : Nat) : ℚ) [.str "09:00", .other]).length = 3 :=
  ⟨by decide,
   (claim_C1_normalizeDoseTimes_length_and_shape 3 (by decide) [.str "09:00", .other]).1⟩

theorem resolvedAt_of_present (incoming : List JsVal) (i : Nat) (v : JsVal)
    (hv : incoming.getD i .undef = v) (hne : v ≠ .undef) :
    resolvedAt incoming i = normalizeTime v := by
  cases i <;> (unfold resolvedAt; rw [hv]; cases v <;> first | rfl | exact absurd rfl hne)

theorem resolvedAt_of_undef (incoming : List JsVal) (i : Nat)
    (hv : incoming.getD i .undef = .undef) :
    resolvedAt incoming i = (if i = 0 then "08:00" else resolvedAt incoming (i - 1)) := by
  cases i with
  | zero =>
    unfold resolvedAt
    rw [hv]
    decide
  | succ j =>
    rw [if_neg (by omega : ¬(j + 1 = 0))]
    show resolvedAt incoming (j + 1) = resolvedAt incoming j
    conv_lhs => rw [resolvedAt]
    rw [hv]
    exact normalizeTime_of_isHHMM _ (isHHMM_resolvedAt incoming j)

theorem get?_normalizeDoseTimes (n : Nat) (hn : 0 < n) (incoming : List JsVal)
    (i : Nat) (hi : i < n) :
    (normalizeDoseTimes (n : ℚ) incoming).get? i = some (resolvedAt incoming i) := by
  rw [normalizeDoseTimes_eq_map, normalizeTimesPerDay_cast n hn, loopIterations_natCast]
  rw [List.get?_eq_getElem?]
  simp [List.getElem?_map, List.getElem?_range, hi]

/-- C2: pointwise behaviour of `normalizeDoseTimes`: a present, valid
candidate is used as-is; a present but invalid candidate yields `"08:00"`
(not the previous entry); a missing (nullish) candidate repeats the
previously resolved entry, with `"08:00"` at index 0; and the two
concrete examples `count=3, ["09:00"]` and `count=2, ["9am","14:30"]`. -/
theorem claim_C2_normalizeDoseTimes_pointwise
    (n : Nat) (hn : 0 < n) (incoming : List JsVal) (i : Nat) (hi : i < n) :
    ((∀ s : String, incoming.getD i .undef = .str s → isHHMM s = true →
        (normalizeDoseTimes (n : ℚ) incoming).get? i = some s) ∧
     (∀ v : JsVal, incoming.getD i .undef = v → v ≠ .undef → isValidTimeVal v = false →
        (normalizeDoseTimes (n : ℚ) incoming).get? i = some "08:00") ∧
     (incoming.getD i .undef = .undef →
        (normalizeDoseTimes (n : ℚ) incoming).get? i =
          (if i = 0 then some "08:00"
           else (normalizeDoseTimes (n : ℚ) incoming).get? (i - 1)))) ∧
    normalizeDoseTimes (3 : ℚ) [.str "09:00"] = ["09:00", "09:00", "09:00"] ∧
    normalizeDoseTimes (2 : ℚ) [.str "9am", .str "14:30"] = ["08:00", "14:30"] := by
  refine ⟨⟨?_, ?_, ?_⟩, by decide, by decide⟩
  · intro s hv hvalid
    rw [get?_normalizeDoseTimes n hn incoming i hi,
      resolvedAt_of_present incoming i (.str s) hv (by simp),
      normalizeTime_of_isHHMM s hvalid]
  · intro v hv hne hinvalid
    rw [get?_normalizeDoseTimes n hn incoming i hi,
      resolvedAt_of_present incoming i v hv hne,
      normalizeTime_of_invalid v hinvalid]
  · intro hv
    rw [get?_normalizeDoseTimes n hn incoming i hi, resolvedAt_of_undef incoming i hv]
    cases hizero : (i = 0 : Bool) with
    | true =>
      simp only [decide_eq_true_eq] at hizero
      simp [hizero]
    | false =>
      simp only [decide_eq_false_iff_not] at hizero
      have hj : i - 1 < n := by omega
      rw [if_neg hizero, if_neg hizero, get?_normalizeDoseTimes n hn incoming (i - 1) hj]

theorem claim_C2_witness :
    0 < 2 ∧ 1 < 2 ∧
      (normalizeDoseTimes ((2 : Nat) : ℚ) [.str "9am", .str "14:30"]).get? 1 =
        some "14:30" :=
  ⟨by decide, by decide,
   (claim_C2_normalizeDoseTimes_pointwise 2 (by decide) [.str "9am", .str "14:30"] 1
       (by decide)).1.1 "14:30" (by decide) (by decide)⟩

/-! The phone normalizer (claim C6). -/

/-- C6: the phone normalizer strips non-digits; digits starting with
`"91"` and numbering at least 12 give `"+"` plus the first 12 digits;
otherwise `"+91"` plus the last 10 digits; an empty digit string gives
`""`; and the function is total, so no error is ever raised.  Includes
the three concrete examples of the specification. -/
theorem claim_C6_formatPhoneNumber_characterization (s : String) :
    ((s.toList.filter Char.isDigit = [] → formatPhoneNumber s = "") ∧
     (s.toList.filter Char.isDigit ≠ [] →
      (s.toList.filter Char.isDigit).take 2 = ['9', '1'] →
      12 ≤ (s.toList.filter Char.isDigit).length →
        formatPhoneNumber s = "+" ++ String.mk ((s.toList.filter Char.isDigit).take 12)) ∧
     (s.toList.filter Char.isDigit ≠ [] →
      ¬((s.toList.filter Char.isDigit).take 2 = ['9', '1'] ∧
          12 ≤ (s.toList.filter Char.isDigit).length) →
        formatPhoneNumber s = "+91" ++ String.mk
          ((s.toList.filter Char.isDigit).drop ((s.toList.filter Char.isDigit).length - 10)))) ∧
    formatPhoneNumber "9876543210" = "+919876543210" ∧
    formatPhoneNumber "919876543210" = "+919876543210" ∧
    formatPhoneNumber "" = "" := by
  refine ⟨⟨?_, ?_, ?_⟩, by decide, by decide, by decide⟩
  · intro hd
    by_cases hs : s = ""
    · rw [hs]
      rfl
    · simp only [formatPhoneNumber, if_neg hs]
      rw [if_pos hd]
  · intro hd h91 hlen
    have hs : s ≠ "" := by
      intro he
      apply hd
      rw [he]
      rfl
    simp only [formatPhoneNumber, if_neg hs]
    rw [if_neg hd, if_pos ⟨h91, hlen⟩]
  · intro hd hno
    have hs : s ≠ "" := by
      intro he
      apply hd
      rw [he]
      rfl
    have hne : (s.toList.filter Char.isDigit).drop
        ((s.toList.filter Char.isDigit).length - 10) ≠ [] := by
      intro he
      have hlen0 : 0 < (s.toList.filter Char.isDigit).length :=
        List.length_pos.mpr hd
      have hlen2 := congrArg List.length he
      rw [List.length_drop] at hlen2
      simp only [List.length_nil] at hlen2
      omega
    simp only [formatPhoneNumber, if_neg hs]
    rw [if_neg hd, if_neg hno, if_neg hne]

theorem claim_C6_witness :
    ("9876543210".toList.filter Char.isDigit ≠ [] ∧
      ¬(("9876543210".toList.filter Char.isDigit).take 2 = ['9', '1'] ∧
          12 ≤ ("9876543210".toList.filter Char.isDigit).length)) ∧
    formatPhoneNumber "9876543210" = "+91" ++ String.mk
      (("9876543210".toList.filter Char.isDigit).drop
        (("9876543210".toList.filter Char.isDigit).length - 10)) :=
  ⟨⟨by decide, by decide⟩,
   (claim_C6_formatPhoneNumber_characterization "9876543210").1.2.2 (by decide) (by decide)⟩

/-! Locating an updated element again after an in-place mutation. -/

theorem find?_updateFirst (p : α → Bool) (f : α → α) (l : List α) (a : α)
    (h : l.find? p = some a) (hf : p (f a) = true) :
    (updateFirst p f l).find? p = some (f a) := by
  induction l with
  | nil => simp at h
  | cons x xs ih =>
    by_cases hx : p x
    · rw [List.find?_cons_of_pos _ hx] at h
      obtain rfl := Option.some.inj h
      simp only [updateFirst, if_pos hx]
      exact List.find?_cons_of_pos _ hf
    · rw [List.find?_cons_of_neg _ hx] at h
      simp only [updateFirst, if_neg hx]
      rw [List.find?_cons_of_neg _ hx]
      exact ih h

/-! The consume route (claims C5 and C4). -/

/-- C5: for every existing member/medication pair and every integer
`change`, consuming sets the supply to `max(0, supply + change)` and adds
`-change` to `consumedCount` exactly when `change` is negative. -/
theorem claim_C5_consume_supply_and_count
    (db : Db) (user : User) (memberId medId : String) (change : Int)
    (uuid ts : Nat → String) (member : Member) (med : Medication)
    (hm : db.members.find? (fun m => m.id == memberId && m.familyId == user.familyId) =
      some member)
    (hmed : member.medications.find? (fun m => m.id == medId) = some med) :
    (consumeOp db user memberId medId change uuid ts).1 = 200 ∧
    ∃ member2 med2,
      (consumeOp db user memberId medId change uuid ts).2.members.find?
          (fun m => m.id == memberId && m.familyId == user.familyId) = some member2 ∧
      member2.medications.find? (fun m => m.id == medId) = some med2 ∧
      med2.supply = max 0 (med.supply + change) ∧
      med2.consumedCount = med.consumedCount + (if change < 0 then -change else 0) := by
  have hpm := List.find?_some hm
  have hpd := List.find?_some hmed
  simp only [consumeOp, hm, hmed]
  refine ⟨trivial, _, _, find?_updateFirst _ _ db.members member hm ?_,
    find?_updateFirst _ _ member.medications med hmed ?_, rfl, rfl⟩
  · exact hpm
  · exact hpd

theorem claim_C5_witness :
    demoDb.members.find? (fun m => m.id == "m1" && m.familyId == demoUser.familyId) =
        some demoMember ∧
    (consumeOp demoDb demoUser "m1" "d1" (-1) uuidO tsO).1 = 200 :=
  ⟨by decide,
   (claim_C5_consume_supply_and_count demoDb demoUser "m1" "d1" (-1) uuidO tsO
       demoMember demoMed (by decide) (by decide)).1⟩

/-- C4: the low-supply warning entry is appended exactly when the supply
crosses from strictly above 5 to at most 5, and the concrete 6 → 5 → 4
consumption sequence appends exactly one warning in its first step and
none in its second. -/
theorem claim_C4_low_supply_warning_iff_crossing
    (db : Db) (user : User) (memberId medId : String) (change : Int)
    (uuid ts : Nat → String) (member : Member) (med : Medication)
    (hm : db.members.find? (fun m => m.id == memberId && m.familyId == user.familyId) =
      some member)
    (hmed : member.medications.find? (fun m => m.id == medId) = some med) :
    ((max 0 (med.supply + change) ≤ 5 ∧ med.supply > 5 →
      (consumeOp db user memberId medId change uuid ts).2.logs =
        lowSupplyEntry (uuid 1) (ts 1) user.familyId med.name member.name ::
          doseTakenEntry (uuid 0) (ts 0) user.familyId med.name member.name
            (max 0 (med.supply + change)) :: db.logs) ∧
     (¬(max 0 (med.supply + change) ≤ 5 ∧ med.supply > 5) →
      (consumeOp db user memberId medId change uuid ts).2.logs =
        doseTakenEntry (uuid 0) (ts 0) user.familyId med.name member.name
          (max 0 (med.supply + change)) :: db.logs)) ∧
    demoStep1.logs.countP isLowSupplyWarning = 1 ∧
    demoStep2.logs.countP isLowSupplyWarning = 1 ∧
    ((demoStep1.members.getD 0 default).medications.getD 0 default).supply = 5 ∧
    ((demoStep2.members.getD 0 default).medications.getD 0 default).supply = 4 := by
  refine ⟨⟨?_, ?_⟩, by decide, by decide, by decide, by decide⟩
  · intro hcross
    simp only [consumeOp, hm, hmed]
    rw [if_pos hcross]
  · intro hcross
    simp only [consumeOp, hm, hmed]
    rw [if_neg hcross]

theorem claim_C4_witness :
    (max 0 (demoMed.supply + -1) ≤ 5 ∧ demoMed.supply > 5) ∧
    (consumeOp demoDb demoUser "m1" "d1" (-1) uuidO tsO).2.logs =
      lowSupplyEntry (uuidO 1) (tsO 1) demoUser.familyId demoMed.name demoMember.name ::
        doseTakenEntry (uuidO 0) (tsO 0) demoUser.familyId demoMed.name demoMember.name
          (max 0 (demoMed.supply + -1)) :: demoDb.logs :=
  ⟨by decide,
   (claim_C4_low_supply_warning_iff_crossing demoDb demoUser "m1" "d1" (-1) uuidO tsO
       demoMember demoMed (by decide) (by decide)).1.1 (by decide)⟩


/-! Registration conflicts (claim C9). -/

/-- C9: registering a username that an existing user already holds
returns 409 and leaves the whole persisted state and the session store
unchanged: no user, family or session is created. -/
theorem claim_C9_duplicate_username_conflict
    (db : Db) (sessions : List (String × String)) (username password phone : Option String)
    (isHead : Bool) (uuid : Nat → String) (token : String) (u : User)
    (hu : u ∈ db.users) (hname : username = some u.username) (hne : u.username ≠ "")
    (hpw : jsTruthyStr password = true) :
    registerOp db sessions username password phone isHead uuid token = (409, db, sessions) := by
  have huser : jsTruthyStr username = true := by
    rw [hname]
    simpa [jsTruthyStr] using hne
  have hany : db.users.any (fun v => v.username == username.getD "") = true := by
    rw [hname]
    exact List.any_eq_true.mpr ⟨u, hu, by simp⟩
  simp [registerOp, huser, hpw, hany]

theorem claim_C9_witness :
    demoUser ∈ demoDb.users ∧
    registerOp demoDb [] (some "alice") (some "password2") none true uuidO "tok" =
      (409, demoDb, []) :=
  ⟨by decide,
   claim_C9_duplicate_username_conflict demoDb [] (some "alice") (some "password2")
     none true uuidO "tok" demoUser (by decide) rfl (by decide) (by decide)⟩

/-! Member update (claim C10). -/

theorem get?_mapIdxFrom (f : Nat → α → β) :
    ∀ (l : List α) (j i : Nat),
      (mapIdxFrom f j l).get? i = (l.get? i).map (f (j + i)) := by
  intro l
  induction l with
  | nil => intro j i; simp [mapIdxFrom]
  | cons x xs ih =>
    intro j i
    cases i with
    | zero => simp [mapIdxFrom]
    | succ k =>
      simp only [mapIdxFrom, List.get?_cons_succ, ih (j + 1) k]
      rw [show j + 1 + k = j + (k + 1) from by omega]

/-- C10: on a successful member update, a request medication whose id
matches an existing medication of the member keeps that medication's
stored `consumedCount` (whatever the client sent), and a request
medication with no matching id gets `consumedCount` 0. -/
theorem claim_C10_put_preserves_consumedCount
    (db : Db) (user : User) (memberId : String) (name ageGroup phone : Option String)
    (phoneProvided : Bool) (medications : List ReqMedication) (uuid : Nat → String)
    (ts : String) (existing : Member)
    (hrole : user.role = "HEAD_OF_FAMILY")
    (hfound : db.members.find? (fun m => m.id == memberId && m.familyId == user.familyId) =
      some existing) :
    (updateMemberOp db user memberId name ageGroup phone phoneProvided medications uuid ts).1 =
      200 ∧
    ∃ updated,
      (updateMemberOp db user memberId name ageGroup phone phoneProvided medications
          uuid ts).2.members.find?
        (fun m => m.id == memberId && m.familyId == user.familyId) = some updated ∧
      ∀ i med, medications.get? i = some med →
        ∃ newMed, updated.medications.get? i = some newMed ∧
          newMed.consumedCount =
            (match med.id with
             | some mid =>
               (match existing.medications.find? (fun x => x.id == mid) with
                | some em => em.consumedCount
                | none => 0)
             | none => 0) := by
  have hrole2 : ¬user.role ≠ "HEAD_OF_FAMILY" := by
    simp [hrole]
  have hupd := find?_updateFirst
    (fun m => m.id == memberId && m.familyId == user.familyId)
    (fun _ => ({ existing with
        name := name.getD existing.name
        ageGroup := ageGroup.getD existing.ageGroup
        phone := if phoneProvided then fmtOptPhone phone else existing.phone
        medications := mapIdxFrom
          (fun i med => buildUpdatedMedication existing.medications (uuid i) med)
          0 medications } : Member))
    db.members existing hfound (by simpa using List.find?_some hfound)
  simp only [updateMemberOp, if_neg hrole2, hfound]
  refine ⟨trivial, _, hupd, ?_⟩
  intro i med hmedi
  have hget : (mapIdxFrom
      (fun i med => buildUpdatedMedication existing.medications (uuid i) med)
      0 medications).get? i =
      some (buildUpdatedMedication existing.medications (uuid (0 + i)) med) := by
    rw [get?_mapIdxFrom, hmedi]
    rfl
  refine ⟨buildUpdatedMedication existing.medications (uuid (0 + i)) med, hget, ?_⟩
  cases hid : med.id with
  | none => simp [buildUpdatedMedication, hid]
  | some mid =>
    cases hfind : existing.medications.find? (fun x => x.id == mid) with
    | none => simp [buildUpdatedMedication, hid, hfind]
    | some em => simp [buildUpdatedMedication, hid, hfind]

theorem claim_C10_witness :
    (updateMemberOp demoDb demoUser "m1" none none none false [demoReqMed] uuidO "ts0").1 =
      200 :=
  (claim_C10_put_preserves_consumedCount demoDb demoUser "m1" none none none false
      [demoReqMed] uuidO "ts0" demoMember rfl (by decide)).1

/-! The reminder trigger (claim C3). -/

/-- C3: a successful reminder trigger produces one event and one new log
entry for a Minor, four events and two new log entries (sharing one
timestamp) for anyone else, and one extra event plus one extra log entry
when the member's family has more than one head. -/
theorem claim_C3_trigger_event_log_counts
    (db : Db) (user : User) (memberId medicationId : String) (doseTime : Option String)
    (reminderTime : String) (uuid ts : Nat → String) (member : Member)
    (medication : Medication) (st : Nat) (db2 : Db) (events : List String)
    (hm : db.members.find? (fun m => m.id == memberId && m.familyId == user.familyId) =
      some member)
    (hmed : member.medications.find? (fun m => m.id == medicationId) = some medication)
    (hr : triggerOp db user memberId medicationId doseTime reminderTime uuid ts =
      (st, db2, events)) :
    st = 200 ∧
    (member.ageGroup = "Minor" →
      events.length = 1 + headsExtra db member.familyId ∧
      db2.logs.length = db.logs.length + (1 + headsExtra db member.familyId)) ∧
    (member.ageGroup ≠ "Minor" →
      events.length = 4 + headsExtra db member.familyId ∧
      db2.logs.length = db.logs.length + (2 + headsExtra db member.familyId) ∧
      (db2.logs.getD (headsExtra db member.familyId) default).timestamp =
        (db2.logs.getD (headsExtra db member.familyId + 1) default).timestamp) := by
  simp only [triggerOp, hm, hmed] at hr
  have hst := congrArg (fun p => p.1) hr
  have hdb := congrArg (fun p => p.2.1) hr
  have hev := congrArg (fun p => p.2.2) hr
  simp only at hst hdb hev
  subst hst hdb hev
  refine ⟨rfl, ?_, ?_⟩
  · intro hmin
    by_cases hh : (getFamilyHeads db member.familyId).length > 1
    · simp [headsExtra, hh, hmin]
    · simp [headsExtra, hh, hmin]
  · intro hmin
    by_cases hh : (getFamilyHeads db member.familyId).length > 1
    · refine ⟨?_, ?_, ?_⟩ <;> simp [headsExtra, hh, hmin, List.getD]
    · refine ⟨?_, ?_, ?_⟩ <;> simp [headsExtra, hh, hmin, List.getD]

theorem claim_C3_witness :
    demoMember.ageGroup ≠ "Minor" ∧
    (triggerOp demoDb demoUser "m1" "d1" none "10:00" uuidO tsO).2.2.length =
      4 + headsExtra demoDb demoMember.familyId :=
  ⟨by decide,
   ((claim_C3_trigger_event_log_counts demoDb demoUser "m1" "d1" none "10:00" uuidO tsO
       demoMember demoMed
       (triggerOp demoDb demoUser "m1" "d1" none "10:00" uuidO tsO).1
       (triggerOp demoDb demoUser "m1" "d1" none "10:00" uuidO tsO).2.1
       (triggerOp demoDb demoUser "m1" "d1" none "10:00" uuidO tsO).2.2
       (by decide) (by decide) rfl).2.2 (by decide)).1⟩

/-! Not-found handling (claim C8). -/

/-- C8 counterexample: a reminder-trigger request whose `medicationId`
matches no medication of the found member responds with status 400, not
404 (the member `m1` exists, the medication `zzz` does not), refuting the
claim that every such request responds 404. -/
theorem claim_C8_counterexample :
    demoDb.members.find? (fun m => m.id == "m1" && m.familyId == demoUser.familyId) =
        some demoMember ∧
    demoMember.medications.find? (fun m => m.id == "zzz") = none ∧
    (triggerOp demoDb demoUser "m1" "zzz" none "10:00" uuidO tsO).1 = 400 ∧
    (triggerOp demoDb demoUser "m1" "zzz" none "10:00" uuidO tsO).1 ≠ 404 := by
  refine ⟨by decide, by decide, by decide, by decide⟩

/-- C8 amended: a consume request whose member or medication is missing,
a trigger request whose member is missing, and a member update whose
member is missing all respond 404 with the state unchanged; a trigger
request whose medication is missing responds 400 (state still
unchanged). -/
theorem claim_C8_amended_not_found_statuses
    (db : Db) (user : User) (memberId medId : String) (change : Int)
    (doseTime : Option String) (reminderTime : String) (uuid ts : Nat → String)
    (name ageGroup phone : Option String) (phoneProvided : Bool)
    (medications : List ReqMedication) (ts2 : String) :
    (db.members.find? (fun m => m.id == memberId && m.familyId == user.familyId) = none →
      consumeOp db user memberId medId change uuid ts = (404, db) ∧
      triggerOp db user memberId medId doseTime reminderTime uuid ts = (404, db, []) ∧
      (user.role = "HEAD_OF_FAMILY" →
        updateMemberOp db user memberId name ageGroup phone phoneProvided medications
          uuid ts2 = (404, db))) ∧
    (∀ member,
      db.members.find? (fun m => m.id == memberId && m.familyId == user.familyId) =
        some member →
      member.medications.find? (fun m => m.id == medId) = none →
      consumeOp db user memberId medId change uuid ts = (404, db) ∧
      triggerOp db user memberId medId doseTime reminderTime uuid ts = (400, db, [])) := by
  constructor
  · intro hnone
    refine ⟨?_, ?_, ?_⟩
    · simp [consumeOp, hnone]
    · simp [triggerOp, hnone]
    · intro hrole
      have hrole2 : ¬user.role ≠ "HEAD_OF_FAMILY" := by
        simp [hrole]
      simp [updateMemberOp, if_neg hrole2, hnone]
  · intro member hmem hmednone
    constructor
    · simp [consumeOp, hmem, hmednone]
    · simp [triggerOp, hmem, hmednone]

theorem claim_C8_amended_witness :
    demoDb.members.find? (fun m => m.id == "nobody" && m.familyId == demoUser.familyId) =
        none ∧
    consumeOp demoDb demoUser "nobody" "d1" (-1) uuidO tsO = (404, demoDb) :=
  ⟨by decide,
   ((claim_C8_amended_not_found_statuses demoDb demoUser "nobody" "d1" (-1) none "10:00"
       uuidO tsO none none none false [] "ts0").1 (by decide)).1⟩

/-! The dose-times/timesPerDay invariant (claim C7). -/

theorem mem_updateFirst (p : α → Bool) (f : α → α) (l : List α) (x : α)
    (hx : x ∈ updateFirst p f l) : x ∈ l ∨ ∃ y ∈ l, x = f y := by
  induction l with
  | nil => simp [updateFirst] at hx
  | cons a as ih =>
    simp only [updateFirst] at hx
    split at hx
    · rcases List.mem_cons.mp hx with h | h
      · exact Or.inr ⟨a, List.mem_cons_self a as, h⟩
      · exact Or.inl (List.mem_cons_of_mem a h)
    · rcases List.mem_cons.mp hx with h | h
      · exact Or.inl (h ▸ List.mem_cons_self a as)
      · rcases ih h with h2 | ⟨y, hy, hxy⟩
        · exact Or.inl (List.mem_cons_of_mem a h2)
        · exact Or.inr ⟨y, List.mem_cons_of_mem a hy, hxy⟩

theorem mem_mapIdxFrom (f : Nat → α → β) (x : β) :
    ∀ (j : Nat) (l : List α), x ∈ mapIdxFrom f j l → ∃ i a, a ∈ l ∧ x = f i a := by
  intro j l
  induction l generalizing j with
  | nil => intro hx; simp [mapIdxFrom] at hx
  | cons a as ih =>
    intro hx
    simp only [mapIdxFrom] at hx
    rcases List.mem_cons.mp hx with h | h
    · exact ⟨j, a, List.mem_cons_self a as, h⟩
    · rcases ih (j + 1) h with ⟨i, b, hb, hxb⟩
      exact ⟨i, b, List.mem_cons_of_mem a hb, hxb⟩

theorem length_normalizeDoseTimes_norm (v : ℚ) (incoming : List JsVal) :
    (normalizeDoseTimes (normalizeTimesPerDay v) incoming).length =
      loopIterations (normalizeTimesPerDay v) := by
  rw [length_normalizeDoseTimes, normalizeTimesPerDay_idem]

theorem length_normalizeDoseTimes_normOpt (v : Option ℚ) (incoming : List JsVal) :
    (normalizeDoseTimes (normalizeTimesPerDayOpt v) incoming).length =
      loopIterations (normalizeTimesPerDayOpt v) := by
  rw [length_normalizeDoseTimes, normalizeTimesPerDayOpt_norm]

theorem medOk_sanitizeMedication (med : RawMedication) : MedOk (sanitizeMedication med) := by
  simp only [MedOk, sanitizeMedication]
  exact ⟨length_normalizeDoseTimes_norm _ _, normalizeTimesPerDay_pos _⟩

theorem medOk_buildNewMedication (freshId : String) (med : ReqMedication) :
    MedOk (buildNewMedication freshId med) := by
  simp only [MedOk, buildNewMedication]
  exact ⟨length_normalizeDoseTimes_normOpt _ _, normalizeTimesPerDayOpt_pos _⟩

theorem medOk_buildUpdatedMedication (existingMeds : List Medication) (freshId : String)
    (med : ReqMedication) : MedOk (buildUpdatedMedication existingMeds freshId med) := by
  simp only [MedOk, buildUpdatedMedication]
  exact ⟨length_normalizeDoseTimes_norm _ _, normalizeTimesPerDay_pos _⟩

theorem dbOk_sanitizeDb (raw : RawDb) : DbOk (sanitizeDb raw) := by
  intro m hm med hmed
  simp only [sanitizeDb, List.mem_map] at hm
  obtain ⟨rm, -, rfl⟩ := hm
  simp only [sanitizeMember, List.mem_map] at hmed
  obtain ⟨rmed, -, rfl⟩ := hmed
  exact medOk_sanitizeMedication rmed

theorem dbOk_registerOp (db : Db) (sessions : List (String × String))
    (username password phone : Option String) (isHead : Bool)
    (uuid : Nat → String) (token : String) (h : DbOk db) :
    DbOk (registerOp db sessions username password phone isHead uuid token).2.1 := by
  intro m hm med hmed
  simp only [registerOp] at hm
  split at hm
  · exact h m hm med hmed
  · split at hm
    · exact h m hm med hmed
    · exact h m hm med hmed

theorem dbOk_addMemberOp (db : Db) (user : User) (name ageGroup phone : Option String)
    (medications : List ReqMedication) (uuid : Nat → String) (ts : String)
    (h : DbOk db) :
    DbOk (addMemberOp db user name ageGroup phone medications uuid ts).2 := by
  intro m hm med hmed
  simp only [addMemberOp] at hm
  split at hm
  · exact h m hm med hmed
  · split at hm
    · exact h m hm med hmed
    · rcases List.mem_append.mp hm with h2 | h2
      · exact h m h2 med hmed
      · rw [List.mem_singleton] at h2
        subst h2
        rcases mem_mapIdxFrom _ med 0 medications hmed with ⟨i, a, -, rfl⟩
        exact medOk_buildNewMedication _ a

theorem dbOk_updateMemberOp (db : Db) (user : User) (memberId : String)
    (name ageGroup phone : Option String) (phoneProvided : Bool)
    (medications : List ReqMedication) (uuid : Nat → String) (ts : String)
    (h : DbOk db) :
    DbOk (updateMemberOp db user memberId name ageGroup phone phoneProvided
      medications uuid ts).2 := by
  intro m hm med hmed
  simp only [updateMemberOp] at hm
  split at hm
  · exact h m hm med hmed
  · split at hm
    · exact h m hm med hmed
    · rcases mem_updateFirst _ _ db.members m hm with h2 | ⟨y, -, rfl⟩
      · exact h m h2 med hmed
      · rcases mem_mapIdxFrom _ med 0 medications hmed with ⟨i, a, -, rfl⟩
        exact medOk_buildUpdatedMedication _ _ a

theorem dbOk_consumeOp (db : Db) (user : User) (memberId medId : String) (change : Int)
    (uuid ts : Nat → String) (h : DbOk db) :
    DbOk (consumeOp db user memberId medId change uuid ts).2 := by
  intro m hm med hmed
  simp only [consumeOp] at hm
  split at hm
  · exact h m hm med hmed
  · next member hmember =>
    split at hm
    · exact h m hm med hmed
    · next med0 hmed0 =>
      rcases mem_updateFirst _ _ db.members m hm with h2 | ⟨y, hy, rfl⟩
      · exact h m h2 med hmed
      · rcases mem_updateFirst _ _ y.medications med hmed with h3 | ⟨z, hz, rfl⟩
        · exact h y hy med h3
        · have hmok : MedOk med0 :=
            h member (List.mem_of_find?_eq_some hmember) med0
              (List.mem_of_find?_eq_some hmed0)
          exact hmok

theorem dbOk_triggerOp (db : Db) (user : User) (memberId medicationId : String)
    (doseTime : Option String) (reminderTime : String) (uuid ts : Nat → String)
    (h : DbOk db) :
    DbOk (triggerOp db user memberId medicationId doseTime reminderTime uuid ts).2.1 := by
  intro m hm med hmed
  simp only [triggerOp] at hm
  split at hm
  · exact h m hm med hmed
  · next member hmember =>
    split at hm
    · exact h m hm med hmed
    · next med0 hmed0 =>
      rcases mem_updateFirst _ _ db.members m hm with h2 | ⟨y, hy, rfl⟩
      · exact h m h2 med hmed
      · rcases mem_updateFirst _ _ y.medications med hmed with h3 | ⟨z, hz, rfl⟩
        · exact h y hy med h3
        · have hmok : MedOk med0 :=
            h member (List.mem_of_find?_eq_some hmember) med0
              (List.mem_of_find?_eq_some hmed0)
          obtain ⟨hlen, hpos⟩ := hmok
          split
          · next hempty =>
            exfalso
            have hceil : 0 < ⌈med0.timesPerDay⌉ := Int.ceil_pos.mpr hpos
            have hlen2 : med0.doseTimes.length = (⌈med0.timesPerDay⌉).toNat := hlen
            rw [hempty] at hlen2
            omega
          · exact ⟨hlen, hpos⟩

/-- C7 counterexample: the on-disk document can carry the non-integral
JSON number 2.5 as `timesPerDay`; startup sanitization stores it
unchanged (`normalizeTimesPerDay` returns any positive number as-is)
while the dose-times loop runs `⌈2.5⌉ = 3` times, so the reachable state
`fracDb` holds a medication with `doseTimes.length = 3` but
`timesPerDay = 5/2`, refuting `doseTimes.length = timesPerDay`. -/
theorem claim_C7_counterexample :
    Reachable fracDb ∧
    fracMember ∈ fracDb.members ∧
    fracMed ∈ fracMember.medications ∧
    fracMed.doseTimes.length = 3 ∧
    fracMed.timesPerDay = mkRat 5 2 ∧
    ¬((fracMed.doseTimes.length : ℚ) = fracMed.timesPerDay) :=
  ⟨Reachable.init fracRawDb, by decide, by decide, by decide, by decide, by decide⟩

/-- C7 (amended): in every state reachable through startup sanitization
and the public mutating operations, every medication has a positive
`timesPerDay` and `doseTimes.length = ⌈timesPerDay⌉` (the number of
iterations of the normalizing loop); whenever `timesPerDay` is an
integer — which every integral request produces — this is exactly
`doseTimes.length = timesPerDay`.  A non-integral `timesPerDay` (e.g.
2.5) is stored unchanged with `⌈timesPerDay⌉` dose times, the case the
counterexample exhibits. -/
theorem claim_C7_doseTimes_length_invariant (db : Db) (h : Reachable db) :
    ∀ m ∈ db.members, ∀ med ∈ m.medications,
      med.doseTimes.length = (⌈med.timesPerDay⌉).toNat ∧ 0 < med.timesPerDay ∧
        (med.timesPerDay.den = 1 → (med.doseTimes.length : ℚ) = med.timesPerDay) := by
  have hdb : DbOk db := by
    induction h with
    | init raw => exact dbOk_sanitizeDb raw
    | register db sessions username password phone isHead uuid token _ ih =>
      exact dbOk_registerOp db sessions username password phone isHead uuid token ih
    | addMember db user name ageGroup phone medications uuid ts _ ih =>
      exact dbOk_addMemberOp db user name ageGroup phone medications uuid ts ih
    | updateMember db user memberId name ageGroup phone phoneProvided medications uuid ts _ ih =>
      exact dbOk_updateMemberOp db user memberId name ageGroup phone phoneProvided
        medications uuid ts ih
    | consume db user memberId medId change uuid ts _ ih =>
      exact dbOk_consumeOp db user memberId medId change uuid ts ih
    | trigger db user memberId medicationId doseTime reminderTime uuid ts _ ih =>
      exact dbOk_triggerOp db user memberId medicationId doseTime reminderTime uuid ts ih
  intro m hm med hmed
  obtain ⟨hlen, hpos⟩ := hdb m hm med hmed
  refine ⟨hlen, hpos, ?_⟩
  intro hden
  have hq : ((med.timesPerDay.num : ℚ)) = med.timesPerDay :=
    (Rat.den_eq_one_iff _).mp hden
  have hnum : 0 < med.timesPerDay.num := Rat.num_pos.mpr hpos
  have hceil : ⌈med.timesPerDay⌉ = med.timesPerDay.num := by
    conv_lhs => rw [← hq]
    rw [Int.ceil_intCast]
  have hlen2 : med.doseTimes.length = (⌈med.timesPerDay⌉).toNat := hlen
  rw [hlen2, hceil, ← hq]
  exact_mod_cast Int.toNat_of_nonneg hnum.le

theorem claim_C7_witness :
    demoSanMember ∈ (sanitizeDb demoRawDb).members ∧
    demoSanMed ∈ demoSanMember.medications ∧
    demoSanMed.doseTimes.length = (⌈demoSanMed.timesPerDay⌉).toNat :=
  ⟨by decide, by decide,
   (claim_C7_doseTimes_length_invariant (sanitizeDb demoRawDb) (Reachable.init demoRawDb)
     demoSanMember (by decide) demoSanMed (by decide)).1⟩
